import Mathlib

/-!
Verification of the plugdata object bridge and rendering-surface core.

Shallow embedding of:
* `GUIObject` value state and synchronization (`Source/Objects/GUIObject.cpp`,
  lines 360-444): `getValueOriginal`, `setValueOriginal`, `getValueScaled`,
  `setValueScaled`, `startEdition`, `stopEdition`, `updateValue`.
* the `createGui` factory (`GUIObject.cpp`, lines 446-573).
* the pd display-list reordering (`changePos`, `moveToFront`,
  `GUIObject.cpp`, lines 175-239), modelled on an explicit heap of
  next-pointers because the source mutates raw pointers.
* the invalidation bridge (`NVGSurface::InvalidationListener::invalidate`)
  and the GPU resource caches (`NVGImage`, `NVGFramebuffer`).

Machine floats are modelled by exact rationals (`ℚ`): the properties at
stake are algebraic identities of the clamping and scaling maps.
-/

namespace PlugData

/-! ## GUIObject value state (GUIObject.cpp 304-444)

The widget's cached scalar `value` together with the `min`/`max` bounds read
from the parameter set, and the `edited` flag that gates inbound updates. -/

structure GUIObject where
  value : ℚ
  min : ℚ
  max : ℚ
  edited : Bool
deriving Repr, DecidableEq

/-- `GUIObject::getValueOriginal` (line 360): returns the cached value. -/
def getValueOriginal (s : GUIObject) : ℚ :=
  s.value

/-- `GUIObject::setValueOriginal` (line 365): clamps `v` to the configured
range unless `min == max == 0`, stores it in the cache (the companion
`setValue` call only enqueues an outbound interpreter message and does not
touch widget state). -/
def setValueOriginal (s : GUIObject) (v : ℚ) : GUIObject :=
  let minimum := s.min
  let maximum := s.max
  let v' :=
    if minimum ≠ maximum ∨ minimum ≠ 0 ∨ maximum ≠ 0 then
      if minimum < maximum then max (min v maximum) minimum
      else max (min v minimum) maximum
    else v
  { s with value := v' }

/-- `GUIObject::getValueScaled` (line 378): maps the cached value to `[0,1]`,
flipping direction for inverted ranges. -/
def getValueScaled (s : GUIObject) : ℚ :=
  let minimum := s.min
  let maximum := s.max
  if minimum < maximum then (s.value - minimum) / (maximum - minimum)
  else 1 - (s.value - maximum) / (minimum - maximum)

/-- `GUIObject::setValueScaled` (line 386): clamps `v` to `[0,1]` and maps it
onto the configured range, flipping direction for inverted ranges. -/
def setValueScaled (s : GUIObject) (v : ℚ) : GUIObject :=
  let minimum := s.min
  let maximum := s.max
  let value :=
    if minimum < maximum then max (min v 1) 0 * (maximum - minimum) + minimum
    else (1 - max (min v 1) 0) * (minimum - maximum) + maximum
  { s with value := value }

/-- `GUIObject::startEdition` (line 395): sets the `edited` flag and reads the
interpreter's current value into the cache (`value = getValue()`); the
"mouse down" message it also enqueues is outbound only. -/
def startEdition (s : GUIObject) (pdValue : ℚ) : GUIObject :=
  { s with edited := true, value := pdValue }

/-- `GUIObject::stopEdition` (line 403): clears the `edited` flag. -/
def stopEdition (s : GUIObject) : GUIObject :=
  { s with edited := false }

/-- `GUIObject::updateValue` (line 409): a no-op while `edited` is set;
otherwise reads the interpreter's authoritative value `pdValue` and, only
when it differs from the cache, stores it and triggers a repaint.  The
returned boolean records whether the update/repaint callback fired. -/
def updateValue (s : GUIObject) (pdValue : ℚ) : GUIObject × Bool :=
  if s.edited then (s, false)
  else if s.value ≠ pdValue then ({ s with value := pdValue }, true)
  else (s, false)

/-- Applying `updateValue` for a whole sequence of interpreter-side values,
keeping only the state. -/
def updateValueSeq (s : GUIObject) (vs : List ℚ) : GUIObject :=
  vs.foldl (fun t x => (updateValue t x).1) s

lemma updateValue_of_edited (s : GUIObject) (v : ℚ) (h : s.edited = true) :
    updateValue s v = (s, false) := by
  simp [updateValue, h]

lemma updateValueSeq_of_edited (vs : List ℚ) (s : GUIObject)
    (h : s.edited = true) : updateValueSeq s vs = s := by
  induction vs generalizing s with
  | nil => rfl
  | cons x xs ih =>
      simp only [updateValueSeq, List.foldl_cons] at *
      rw [updateValue_of_edited s x h]
      exact ih s h

/-! ## The createGui factory (GUIObject.cpp 446-573)

`createGui` inspects the interpreter object's class name plus, for ambiguous
classes, construction-time discriminators: the `te_type` flag of a `t_text`,
the `a_flavor` tag of a `t_fake_gatom`, the head of a canvas's `gl_list` and
its `gl_isgraph` flag, `libpd_is_text_object`, `g_pd == scalar_class`, and
`pd_checkobject`.  The embedding gathers those inspected facts in a record;
constructor arguments that do not change the concrete widget class (for
example the validity flag passed to `TextObject`) are not part of the
variant. -/

inductive TeType where
  | T_TEXT
  | T_OBJECT
  | T_MESSAGE
  | T_ATOM
deriving Repr, DecidableEq

inductive AtomFlavor where
  | A_NULL
  | A_FLOAT
  | A_SYMBOL
  | A_POINTER
deriving Repr, DecidableEq

/-- The construction-time view `createGui` takes of an interpreter object.
`glList` is `none` when the canvas's `gl_list` is null, and otherwise holds
the class name of the first list element when that class and its name are
non-null (`c && c->c_name`). -/
structure PdObject where
  className : String
  te_type : TeType
  a_flavor : AtomFlavor
  glList : Option (Option String)
  gl_isgraph : Bool
  isTextObject : Bool
  isScalarClass : Bool
  isPatchable : Bool
deriving Repr, DecidableEq

inductive KeyObjectType where
  | Key
  | KeyName
  | KeyUp
deriving Repr, DecidableEq

/-- The concrete widget classes `createGui` can instantiate. -/
inductive Widget where
  | BangObject
  | ButtonObject
  | SliderObject
  | ToggleObject
  | NumberObject
  | NumboxTildeObject
  | RadioObject
  | CanvasObject
  | VUMeterObject
  | TextObject
  | CommentObject
  | CycloneCommentObject
  | MessageObject
  | MousePadObject
  | MouseObject
  | KeyboardObject
  | PictureObject
  | TextDefineObject
  | FloatAtomObject
  | SymbolAtomObject
  | ListObject
  | ArrayObject
  | GraphOnParent
  | SubpatchObject
  | ArrayDefineObject
  | CloneObject
  | ScalarObject
  | KeyObject (kind : KeyObjectType)
  | OscopeObject
  | ScopeObject
  | FunctionObject
  | CanvasActiveObject
  | CanvasMouseObject
  | CanvasVisibleObject
  | CanvasZoomObject
  | CanvasEditObject
  | NonPatchable
deriving Repr, DecidableEq

/-- `GUIObject::createGui` (lines 446-573), branch for branch.  Inside the
`gatom` and `scalar` branches an unmatched flavor or class falls through the
whole else-if chain to the final `return new TextObject(ptr, parent)`. -/
def createGui (o : PdObject) : Widget :=
  let name := o.className
  if name = "bng" then .BangObject
  else if name = "button" then .ButtonObject
  else if name = "hsl" ∨ name = "vsl" ∨ name = "slider" then .SliderObject
  else if name = "tgl" then .ToggleObject
  else if name = "nbx" then .NumberObject
  else if name = "numbox~" then .NumboxTildeObject
  else if name = "vradio" ∨ name = "hradio" then .RadioObject
  else if name = "cnv" then .CanvasObject
  else if name = "vu" then .VUMeterObject
  else if name = "text" then
    if o.te_type = .T_OBJECT then .TextObject else .CommentObject
  else if name = "comment" then .CycloneCommentObject
  else if name = "message" ∧ o.isTextObject = true then .MessageObject
  else if name = "pad" then .MousePadObject
  else if name = "mouse" then .MouseObject
  else if name = "keyboard" then .KeyboardObject
  else if name = "pic" then .PictureObject
  else if name = "text define" then .TextDefineObject
  else if name = "gatom" then
    if o.a_flavor = .A_FLOAT then .FloatAtomObject
    else if o.a_flavor = .A_SYMBOL then .SymbolAtomObject
    else if o.a_flavor = .A_NULL then .ListObject
    else .TextObject
  else if name = "canvas" ∨ name = "graph" then
    match o.glList with
    | some headClass =>
        if headClass = some "array" then .ArrayObject
        else if o.gl_isgraph = true then .GraphOnParent
        else .SubpatchObject
    | none =>
        if o.gl_isgraph = true then .GraphOnParent
        else .SubpatchObject
  else if name = "array define" then .ArrayDefineObject
  else if name = "clone" then .CloneObject
  else if name = "pd" then .SubpatchObject
  else if name = "scalar" then
    if o.isScalarClass = true then .ScalarObject
    else .TextObject
  else if name = "key" then .KeyObject .Key
  else if name = "keyname" then .KeyObject .KeyName
  else if name = "keyup" then .KeyObject .KeyUp
  else if name = "oscope~" then .OscopeObject
  else if name = "scope~" then .ScopeObject
  else if name = "function" then .FunctionObject
  else if name = "canvas.active" then .CanvasActiveObject
  else if name = "canvas.mouse" then .CanvasMouseObject
  else if name = "canvas.vis" then .CanvasVisibleObject
  else if name = "canvas.zoom" then .CanvasZoomObject
  else if name = "canvas.edit" then .CanvasEditObject
  else if o.isPatchable = false then .NonPatchable
  else .TextObject

/-- The sub-kind tag of an object: every construction-time discriminator
`createGui` inspects beyond the class name itself. -/
def subKind (o : PdObject) :
    TeType × AtomFlavor × Option (Option String) × Bool × Bool × Bool × Bool :=
  (o.te_type, o.a_flavor, o.glList, o.gl_isgraph, o.isTextObject,
    o.isScalarClass, o.isPatchable)

/-- Every class name that appears in a branch condition of `createGui`. -/
def knownClassNames : List String :=
  ["bng", "button", "hsl", "vsl", "slider", "tgl", "nbx", "numbox~",
   "vradio", "hradio", "cnv", "vu", "text", "comment", "message", "pad",
   "mouse", "keyboard", "pic", "text define", "gatom", "canvas", "graph",
   "array define", "clone", "pd", "scalar", "key", "keyname", "keyup",
   "oscope~", "scope~", "function", "canvas.active", "canvas.mouse",
   "canvas.vis", "canvas.zoom", "canvas.edit"]

/-! ## The pd display list (changePos / moveToFront, GUIObject.cpp 175-249)

`changePos` mutates raw `t_gobj` pointers, so the embedding keeps an
explicit heap: the canvas's `gl_list` head pointer plus each node's
`g_next` pointer as a finite association map over node identifiers.
Pointer walks carry explicit fuel; every theorem supplies enough fuel for
its heap.  A null-pointer dereference in the source is modelled as `none`
in an `Option`-valued result. -/

structure Glist where
  head : Option ℕ
  next : List (ℕ × Option ℕ)
deriving Repr, DecidableEq

/-- Read a node's `g_next` pointer (nodes missing from the map read null). -/
def getNext (h : Glist) (x : ℕ) : Option ℕ :=
  (List.lookup x h.next).getD none

/-- Write a node's `g_next` pointer. -/
def setNext (h : Glist) (x : ℕ) (v : Option ℕ) : Glist :=
  { h with next := (x, v) :: h.next }

/-- The search loop of `changePos` (lines 184-189): walk `g_next` from
`link` until `obj` or null, tracking `prev` and `count`. -/
def findObj (h : Glist) (obj : ℕ) :
    ℕ → Option ℕ → Option ℕ → ℕ → Option ℕ × Option ℕ × ℕ
  | 0, link, prev, count => (link, prev, count)
  | fuel + 1, link, prev, count =>
    match link with
    | none => (none, prev, count)
    | some l =>
        if l = obj then (some l, prev, count)
        else findObj h obj fuel (getNext h l) (some l) (count + 1)

/-- The index walk of `changePos` (lines 214-216): advance `node` up to
`steps` times, stopping early at a null `g_next`.  The result is `none`
when the source would dereference a null `node`. -/
def advance (h : Glist) : ℕ → Option ℕ → Option (Option ℕ)
  | 0, node => some node
  | steps + 1, node =>
    match node with
    | none => none
    | some n =>
        match getNext h n with
        | none => some (some n)
        | some m => advance h steps (some m)

/-- `changePos` (lines 175-220), statement for statement.  Note that in the
`count == 0` branch the source assigns only the local variables `obj` and
`root` ("update root"): the canvas's `gl_list` field is never written, and
the embedding reproduces that.  `none` signals a null dereference. -/
def changePos (fuel : ℕ) (h : Glist) (obj : ℕ) (pos : ℕ) : Option Glist :=
  let root := h.head
  match findObj h obj fuel root none 0 with
  | (none, _, _) => some h
  | (some link, prev, count) =>
      if count = pos then some h
      else
        let root2 := if count = 0 then getNext h link else root
        let h2 :=
          if count = 0 then h
          else
            match prev with
            | some p => setNext h p (getNext h link)
            | none => h
        if pos = 0 then some (setNext h2 link root2)
        else
          match advance h2 (pos - 1) root2 with
          | none => none
          | some none => none
          | some (some node) =>
              some (setNext (setNext h2 link (getNext h2 node)) node
                (some link))

/-- The counting loop of `moveToFront` (lines 226-232): number of nodes
reachable from `cur` within `fuel` steps. -/
def glLength (h : Glist) : ℕ → Option ℕ → ℕ
  | _, none => 0
  | 0, some _ => 0
  | fuel + 1, some n => 1 + glLength h fuel (getNext h n)

/-- `ObjectBase::moveToFront` (lines 222-239): computes
`idx = length(gl_list) - 1` starting from `-1`, returns unchanged when
`idx < 0`, and otherwise calls `changePos`. -/
def moveToFront (fuel : ℕ) (h : Glist) (obj : ℕ) : Option Glist :=
  let idx : ℤ := (glLength h fuel h.head : ℤ) - 1
  if idx < 0 then some h
  else changePos fuel h obj idx.toNat

/-- The node sequence reachable from `cur` within `fuel` steps. -/
def reachFrom (h : Glist) : ℕ → Option ℕ → List ℕ
  | _, none => []
  | 0, some _ => []
  | fuel + 1, some n => n :: reachFrom h fuel (getNext h n)

/-- The display list as observed from the canvas: the nodes reachable from
`gl_list`. -/
def displayList (h : Glist) (fuel : ℕ) : List ℕ :=
  reachFrom h fuel h.head

/-! ## Rectangles and the invalidation bridge (NVGSurface, part_002)

Integer rectangles with the framework's semantics: `isEmpty`,
`getIntersection` (empty result on no overlap), `getUnion` (returns the
other operand when one side is empty, otherwise the bounding box),
`expanded`, `translated`. -/

structure Rect where
  x : ℤ
  y : ℤ
  w : ℤ
  h : ℤ
deriving Repr, DecidableEq

def Rect.isEmpty (r : Rect) : Prop :=
  r.w ≤ 0 ∨ r.h ≤ 0

instance (r : Rect) : Decidable r.isEmpty := by
  unfold Rect.isEmpty
  infer_instance

def Rect.getRight (r : Rect) : ℤ :=
  r.x + r.w

def Rect.getBottom (r : Rect) : ℤ :=
  r.y + r.h

def Rect.getIntersection (r o : Rect) : Rect :=
  let nx := max r.x o.x
  let ny := max r.y o.y
  let nw := min r.getRight o.getRight - nx
  if 0 ≤ nw then
    let nh := min r.getBottom o.getBottom - ny
    if 0 ≤ nh then ⟨nx, ny, nw, nh⟩ else ⟨0, 0, 0, 0⟩
  else ⟨0, 0, 0, 0⟩

def Rect.getUnion (r o : Rect) : Rect :=
  if o.isEmpty then r
  else if r.isEmpty then o
  else
    let nx := min r.x o.x
    let ny := min r.y o.y
    ⟨nx, ny, max r.getRight o.getRight - nx, max r.getBottom o.getBottom - ny⟩

def Rect.expanded (r : Rect) (d : ℤ) : Rect :=
  ⟨r.x - d, r.y - d, r.w + 2 * d, r.h + 2 * d⟩

def Rect.translated (r : Rect) (dx dy : ℤ) : Rect :=
  ⟨r.x + dx, r.y + dy, r.w, r.h⟩

/-- The origin component of an invalidation request: its local bounds are
`(0, 0, width, height)`; its placement in the surface's coordinate space is
the translation `(dx, dy)` (the `getLocalArea` mapping, under which the
float round trip `toFloat` / `getSmallestIntegerContainer` is exact). -/
structure Origin where
  width : ℤ
  height : ℤ
  visible : Bool
  dx : ℤ
  dy : ℤ
deriving Repr, DecidableEq

def Origin.localBounds (c : Origin) : Rect :=
  ⟨0, 0, c.width, c.height⟩

/-- One `invalidate(rect)` request from one origin component. -/
structure InvalidateCall where
  origin : Origin
  rect : Rect
deriving Repr, DecidableEq

/-- Modelled from the spec: `NVGSurface::invalidateArea` is declared in the
sources (part_002, line 392) but its body is not among the shown files; per
the spec the transformed rectangle "is unioned into the surface's
accumulator". -/
def invalidateArea (acc : Rect) (area : Rect) : Rect :=
  acc.getUnion area

/-- `NVGSurface::InvalidationListener::invalidate` (part_002, lines
365-375): intersect the requested rectangle with the origin component's
local bounds; when the component is visible and the clip is non-empty,
expand it by 2, map it into surface coordinates, and union it into the
accumulator.  (The boolean the listener returns,
`renderThroughImage || passEvents`, does not touch the accumulator.) -/
def invalidate (acc : Rect) (c : InvalidateCall) : Rect :=
  let b := c.rect.getIntersection c.origin.localBounds
  if c.origin.visible = true ∧ ¬ b.isEmpty then
    invalidateArea acc ((b.expanded 2).translated c.origin.dx c.origin.dy)
  else acc

/-- The accumulated dirty rectangle after a sequence of `invalidate` calls
issued between two frame composites (the accumulator starts cleared). -/
def processInvalidations (calls : List InvalidateCall) : Rect :=
  calls.foldl invalidate ⟨0, 0, 0, 0⟩

def boundingUnion (rs : List Rect) : Rect :=
  rs.foldl Rect.getUnion ⟨0, 0, 0, 0⟩

/-- The rectangles each call actually contributes to the accumulator: the
clip against the origin's bounds, expanded by 2 and mapped to surface
coordinates; invisible components and empty clips contribute nothing. -/
def contributions (calls : List InvalidateCall) : List Rect :=
  calls.filterMap fun c =>
    let b := c.rect.getIntersection c.origin.localBounds
    if c.origin.visible = true ∧ ¬ b.isEmpty then
      some ((b.expanded 2).translated c.origin.dx c.origin.dy)
    else none

/-- The claim's candidate value for the accumulator, written from the
spec's words: the bounding union of the requested rectangles, each first
intersected with its originating component's bounds, dropping invisible
components and empty intersections. -/
def specDirtyRect (calls : List InvalidateCall) : Rect :=
  boundingUnion (calls.filterMap fun c =>
    let b := c.rect.getIntersection c.origin.localBounds
    if c.origin.visible = true ∧ ¬ b.isEmpty then some b else none)

/-! ## GPU resource caches (NVGImage / NVGFramebuffer, part_002 507-859)

The backend handles (`imageId`, the `NVGframebuffer*` pointer, the GL
context) are opaque; the embedding keeps what the cache logic reads: the
sub-image bounds list, the stored dimensions, and the dirty flags.  A
single rendering context is assumed (the `nvg == context` conjunct of the
in-place-update test holds). -/

structure NVGImage where
  subImages : List Rect
  totalWidth : ℤ
  totalHeight : ℤ
  isDirty : Bool
deriving Repr, DecidableEq

/-- The default constructor `NVGImage()` (line 535). -/
def NVGImage.mkEmpty : NVGImage :=
  ⟨[], 0, 0, false⟩

/-- `NVGImage::needsUpdate` (line 729): absent resource, size mismatch, or
explicit dirty flag. -/
def NVGImage.needsUpdate (s : NVGImage) (width height : ℤ) : Prop :=
  s.subImages = [] ∨ width ≠ s.totalWidth ∨ height ≠ s.totalHeight ∨
    s.isDirty = true

instance (s : NVGImage) (w h : ℤ) : Decidable (s.needsUpdate w h) := by
  unfold NVGImage.needsUpdate
  infer_instance

/-- `NVGImage::setDirty` (line 742). -/
def NVGImage.setDirty (s : NVGImage) : NVGImage :=
  { s with isDirty := true }

/-- The inner tiling loop of `loadJUCEImage` (lines 673-696): sub-image
bounds stacked down one column.  `fuel` bounds the loop. -/
def tileColumn (limit x w totalHeight : ℤ) : ℕ → ℤ → List Rect
  | 0, _ => []
  | fuel + 1, y =>
      if y < totalHeight then
        ⟨x, y, w, min limit (totalHeight - y)⟩ ::
          tileColumn limit x w totalHeight fuel (y + limit)
      else []

/-- The outer tiling loop of `loadJUCEImage` (lines 669-698). -/
def tileGrid (limit totalWidth totalHeight : ℤ) (fuelC : ℕ) :
    ℕ → ℤ → List Rect
  | 0, _ => []
  | fuel + 1, x =>
      if x < totalWidth then
        tileColumn limit x (min limit (totalWidth - x)) totalHeight fuelC 0 ++
          tileGrid limit totalWidth totalHeight fuelC fuel (x + limit)
      else []

/-- `NVGImage::loadJUCEImage` (lines 625-699): stores the image dimensions;
small images keep the existing sub-image when its bounds match (in-place
texture update) and otherwise get a single full-bounds sub-image; images
exceeding the texture size limit are cut into a grid of tiles. -/
def NVGImage.loadJUCEImage (limit : ℤ) (fuel : ℕ) (imgW imgH : ℤ)
    (s : NVGImage) : NVGImage :=
  let s2 : NVGImage := { s with totalWidth := imgW, totalHeight := imgH }
  if imgW ≤ limit ∧ imgH ≤ limit then
    if s2.subImages ≠ [] ∧ s2.subImages.head? = some ⟨0, 0, imgW, imgH⟩ then
      s2
    else { s2 with subImages := [⟨0, 0, imgW, imgH⟩] }
  else { s2 with subImages := tileGrid limit imgW imgH fuel fuel 0 }

/-- The rendering constructor `NVGImage(nvg, width, height, renderCall, …)`
(line 516): builds a fresh JUCE image of the requested size, renders into
it, and loads it. -/
def NVGImage.create (limit : ℤ) (fuel : ℕ) (w h : ℤ) : NVGImage :=
  NVGImage.mkEmpty.loadJUCEImage limit fuel w h

structure NVGFramebuffer where
  fb : Bool
  fbWidth : ℤ
  fbHeight : ℤ
  fbDirty : Bool
deriving Repr, DecidableEq

/-- A fresh `NVGFramebuffer` (line 766): no backend buffer yet. -/
def NVGFramebuffer.mkEmpty : NVGFramebuffer :=
  ⟨false, 0, 0, false⟩

/-- `NVGFramebuffer::needsUpdate` (line 794). -/
def NVGFramebuffer.needsUpdate (s : NVGFramebuffer) (width height : ℤ) :
    Prop :=
  s.fb = false ∨ width ≠ s.fbWidth ∨ height ≠ s.fbHeight ∨ s.fbDirty = true

instance (s : NVGFramebuffer) (w h : ℤ) : Decidable (s.needsUpdate w h) := by
  unfold NVGFramebuffer.needsUpdate
  infer_instance

/-- `NVGFramebuffer::setDirty` (line 804). -/
def NVGFramebuffer.setDirty (s : NVGFramebuffer) : NVGFramebuffer :=
  { s with fbDirty := true }

/-- `NVGFramebuffer::bind` (line 809): allocates (or reallocates) the
backend framebuffer when absent or when the size changed. -/
def NVGFramebuffer.bind (s : NVGFramebuffer) (w h : ℤ) : NVGFramebuffer :=
  if s.fb = false ∨ s.fbWidth ≠ w ∨ s.fbHeight ≠ h then
    { s with fb := true, fbWidth := w, fbHeight := h }
  else s

/-- `NVGFramebuffer::renderToFramebuffer` (line 828): bind (creating if
needed), run the render callback, unbind, and clear the dirty flag. -/
def NVGFramebuffer.renderToFramebuffer (s : NVGFramebuffer) (w h : ℤ) :
    NVGFramebuffer :=
  { s.bind w h with fbDirty := false }

/-! ## Theorems: value synchronization (claims about GUIObject.cpp) -/

/-- **C3.** `setValueOriginal(v)` followed by `getValueOriginal()` returns `v`
clamped to `[min,max]` when `min < max`, clamped to `[max,min]` when
`min > max`, and `v` unmodified when `min == 0` and `max == 0`. -/
theorem setValueOriginal_getValueOriginal (s : GUIObject) (v : ℚ) :
    (s.min < s.max →
      getValueOriginal (setValueOriginal s v) = max s.min (min v s.max)) ∧
    (s.max < s.min →
      getValueOriginal (setValueOriginal s v) = max s.max (min v s.min)) ∧
    (s.min = 0 → s.max = 0 → getValueOriginal (setValueOriginal s v) = v) := by
  refine ⟨?_, ?_, ?_⟩
  · intro h
    have hne : s.min ≠ s.max := ne_of_lt h
    simp [setValueOriginal, getValueOriginal, hne, h, max_comm]
  · intro h
    have hne : s.min ≠ s.max := (ne_of_lt h).symm
    have hnlt : ¬ s.min < s.max := not_lt_of_gt h
    simp [setValueOriginal, getValueOriginal, hne, hnlt, max_comm]
  · intro h0 h1
    simp [setValueOriginal, getValueOriginal, h0, h1]

/-- Witness for `setValueOriginal_getValueOriginal`: with range `[2,10]`, the
value `20` is clamped to `10`, and with an unconfigured range it passes
through unchanged. -/
theorem setValueOriginal_getValueOriginal_witness :
    getValueOriginal (setValueOriginal ⟨0, 2, 10, false⟩ 20) = 10 ∧
    getValueOriginal (setValueOriginal ⟨0, 0, 0, false⟩ 20) = 20 := by
  constructor
  · rw [(setValueOriginal_getValueOriginal ⟨0, 2, 10, false⟩ 20).1 (by decide)]
    decide
  · exact (setValueOriginal_getValueOriginal ⟨0, 0, 0, false⟩ 20).2.2 rfl rfl

/-- **C4.** With a configured range (`min ≠ max`), `setValueScaled(0)` places
the cached value at `min` and reads back as scaled position `0`, and
`setValueScaled(1)` places it at `max` and reads back as `1`, for both normal
and inverted ranges. -/
theorem setValueScaled_endpoints (s : GUIObject) (h : s.min ≠ s.max) :
    (setValueScaled s 0).value = s.min ∧
    getValueScaled (setValueScaled s 0) = 0 ∧
    (setValueScaled s 1).value = s.max ∧
    getValueScaled (setValueScaled s 1) = 1 := by
  rcases lt_or_gt_of_ne h with hlt | hgt
  · have hne : s.max - s.min ≠ 0 := sub_ne_zero_of_ne (Ne.symm (ne_of_lt hlt))
    refine ⟨?_, ?_, ?_, ?_⟩ <;>
      simp [setValueScaled, getValueScaled, hlt] <;>
      field_simp
  · have hnlt : ¬ s.min < s.max := not_lt_of_gt hgt
    have hne : s.min - s.max ≠ 0 := sub_ne_zero_of_ne (ne_of_gt hgt)
    refine ⟨?_, ?_, ?_, ?_⟩ <;>
      simp [setValueScaled, getValueScaled, hnlt] <;>
      field_simp

/-- Witness for `setValueScaled_endpoints` on the inverted range
`min = 10, max = 2`. -/
theorem setValueScaled_endpoints_witness :
    (setValueScaled ⟨0, 10, 2, false⟩ 0).value = 10 ∧
    getValueScaled (setValueScaled ⟨0, 10, 2, false⟩ 1) = 1 := by
  have h := setValueScaled_endpoints ⟨0, 10, 2, false⟩ (by decide)
  exact ⟨h.1, h.2.2.2⟩

/-- **C10.** With `min ≠ max`, the scaling maps are mutually inverse on
`[0,1]`: `setValueScaled(v)` followed by `getValueScaled()` returns `v`, for
both normal and inverted ranges. -/
theorem getValueScaled_setValueScaled (s : GUIObject) (v : ℚ)
    (h : s.min ≠ s.max) (h0 : 0 ≤ v) (h1 : v ≤ 1) :
    getValueScaled (setValueScaled s v) = v := by
  have hmin : min v 1 = v := min_eq_left h1
  have hmax : max v 0 = v := max_eq_left h0
  rcases lt_or_gt_of_ne h with hlt | hgt
  · have hne : s.max - s.min ≠ 0 := sub_ne_zero_of_ne (Ne.symm (ne_of_lt hlt))
    simp only [setValueScaled, getValueScaled, if_pos hlt, hmin, hmax]
    field_simp
  · have hnlt : ¬ s.min < s.max := not_lt_of_gt hgt
    have hne : s.min - s.max ≠ 0 := sub_ne_zero_of_ne (ne_of_gt hgt)
    simp only [setValueScaled, getValueScaled, if_neg hnlt, hmin, hmax]
    field_simp

/-- Witness for `getValueScaled_setValueScaled` at `v = 1/4` on the inverted
range `min = 10, max = 2`. -/
theorem getValueScaled_setValueScaled_witness :
    getValueScaled (setValueScaled ⟨0, 10, 2, false⟩ (mkRat 1 4)) = mkRat 1 4 :=
  getValueScaled_setValueScaled ⟨0, 10, 2, false⟩ (mkRat 1 4)
    (by decide) (by decide) (by decide)

/-- **C2.** While `startEdition()` has been called and `stopEdition()` has
not (the `edited` flag is set), no sequence of `updateValue()` calls changes
the widget's cached value, whatever the interpreter-side values are; once
`stopEdition()` has cleared the flag, `updateValue()` stores the
interpreter's authoritative value and fires the UI update exactly when it
differs from the cache. -/
theorem updateValue_edition_protocol (s : GUIObject) (pdv : ℚ) (vs : List ℚ)
    (w : GUIObject) (v : ℚ) :
    updateValueSeq (startEdition s pdv) vs = startEdition s pdv ∧
    (updateValue (stopEdition w) v).1.value = v ∧
    ((updateValue (stopEdition w) v).2 = true ↔ (stopEdition w).value ≠ v) := by
  refine ⟨updateValueSeq_of_edited vs _ rfl, ?_⟩
  by_cases hv : w.value = v <;> simp [updateValue, stopEdition, hv]

/-! ## Theorems: the createGui factory -/

/-- **C1.** `createGui` maps class `"tgl"` to the Toggle widget, `"bng"` to
the Bang widget, `"text"` to the plain text-object widget exactly when
`te_type` is `T_OBJECT` and to the comment widget otherwise, and `"gatom"`
to the float-atom, symbol-atom, or list widget according to the flavor tag
`A_FLOAT` / `A_SYMBOL` / `A_NULL`; and it is deterministic: two objects with
the same class name and the same sub-kind tag receive the same concrete
widget variant. -/
theorem createGui_class_scenarios (o o₁ o₂ : PdObject) :
    (o.className = "tgl" → createGui o = .ToggleObject) ∧
    (o.className = "bng" → createGui o = .BangObject) ∧
    (o.className = "text" → o.te_type = .T_OBJECT →
      createGui o = .TextObject) ∧
    (o.className = "text" → o.te_type ≠ .T_OBJECT →
      createGui o = .CommentObject) ∧
    (o.className = "gatom" → o.a_flavor = .A_FLOAT →
      createGui o = .FloatAtomObject) ∧
    (o.className = "gatom" → o.a_flavor = .A_SYMBOL →
      createGui o = .SymbolAtomObject) ∧
    (o.className = "gatom" → o.a_flavor = .A_NULL →
      createGui o = .ListObject) ∧
    (o₁.className = o₂.className → subKind o₁ = subKind o₂ →
      createGui o₁ = createGui o₂) := by
  refine ⟨?_, ?_, ?_, ?_, ?_, ?_, ?_, ?_⟩
  · intro h; simp [createGui, h]
  · intro h; simp [createGui, h]
  · intro h ht; simp [createGui, h, ht]
  · intro h ht; simp [createGui, h, ht]
  · intro h hf; simp [createGui, h, hf]
  · intro h hf; simp [createGui, h, hf]
  · intro h hf; simp [createGui, h, hf]
  · intro h hk
    cases o₁ with
    | mk c1 t1 f1 g1 gi1 it1 is1 ip1 =>
      cases o₂ with
      | mk c2 t2 f2 g2 gi2 it2 is2 ip2 =>
        simp only [subKind, Prod.mk.injEq] at hk
        simp only at h
        obtain ⟨e1, e2, e3, e4, e5, e6, e7⟩ := hk
        subst h e1 e2 e3 e4 e5 e6 e7
        rfl

/-- Witness for `createGui_class_scenarios`: a toggle object and a
symbol-flavored gatom. -/
theorem createGui_class_scenarios_witness :
    createGui ⟨"tgl", .T_OBJECT, .A_NULL, none, false, false, false, true⟩ =
      .ToggleObject ∧
    createGui ⟨"gatom", .T_ATOM, .A_SYMBOL, none, false, false, false, true⟩ =
      .SymbolAtomObject := by
  constructor
  · exact (createGui_class_scenarios
      ⟨"tgl", .T_OBJECT, .A_NULL, none, false, false, false, true⟩
      ⟨"tgl", .T_OBJECT, .A_NULL, none, false, false, false, true⟩
      ⟨"tgl", .T_OBJECT, .A_NULL, none, false, false, false, true⟩).1 rfl
  · exact (createGui_class_scenarios
      ⟨"gatom", .T_ATOM, .A_SYMBOL, none, false, false, false, true⟩
      ⟨"tgl", .T_OBJECT, .A_NULL, none, false, false, false, true⟩
      ⟨"tgl", .T_OBJECT, .A_NULL, none, false, false, false, true⟩).2.2.2.2.2.1
      rfl rfl

/-- **C7.** `createGui` is total — in this embedding it is a function into
`Widget`, so every interpreter object receives exactly one widget — and on a
class name matching none of the known classes it falls back to the generic
`TextObject` when the object is patchable (`pd_checkobject` succeeds) and to
the invisible `NonPatchable` placeholder when it is not. -/
theorem createGui_fallback (o : PdObject)
    (h : o.className ∉ knownClassNames) :
    (o.isPatchable = true → createGui o = .TextObject) ∧
    (o.isPatchable = false → createGui o = .NonPatchable) := by
  have hne : ∀ s ∈ knownClassNames, o.className ≠ s :=
    fun s hs he => h (he ▸ hs)
  simp only [knownClassNames, List.mem_cons, List.not_mem_nil, or_false,
    forall_eq_or_imp, forall_eq] at hne
  obtain ⟨h01, h02, h03, h04, h05, h06, h07, h08, h09, h10, h11, h12, h13,
    h14, h15, h16, h17, h18, h19, h20, h21, h22, h23, h24, h25, h26, h27,
    h28, h29, h30, h31, h32, h33, h34, h35, h36, h37, h38⟩ := hne
  constructor <;> intro hp <;>
    simp [createGui, h01, h02, h03, h04, h05, h06, h07, h08, h09, h10, h11,
      h12, h13, h14, h15, h16, h17, h18, h19, h20, h21, h22, h23, h24, h25,
      h26, h27, h28, h29, h30, h31, h32, h33, h34, h35, h36, h37, h38, hp]

/-- Witness for `createGui_fallback`: the unknown class `"else/knob"` maps
to `TextObject` when patchable and to `NonPatchable` when not. -/
theorem createGui_fallback_witness :
    createGui ⟨"else/knob", .T_OBJECT, .A_NULL, none, false, false, false,
      true⟩ = .TextObject ∧
    createGui ⟨"else/knob", .T_OBJECT, .A_NULL, none, false, false, false,
      false⟩ = .NonPatchable := by
  constructor
  · exact (createGui_fallback
      ⟨"else/knob", .T_OBJECT, .A_NULL, none, false, false, false, true⟩
      (by decide)).1 rfl
  · exact (createGui_fallback
      ⟨"else/knob", .T_OBJECT, .A_NULL, none, false, false, false, false⟩
      (by decide)).2 rfl

/-! ## Theorems: display-list reordering -/

/-- **C8.** `moveToFront` leaves the display list completely unchanged when
the list is empty (the computed index is `-1`, rejected by the `idx < 0`
guard) and when the object is the only element (the search finds it already
at the target position `0`); in both cases the heap — head pointer and
every `g_next` pointer — is returned untouched. -/
theorem moveToFront_noop (fuel : ℕ) (nx : List (ℕ × Option ℕ)) (a obj : ℕ) :
    moveToFront fuel ⟨none, nx⟩ obj = some ⟨none, nx⟩ ∧
    moveToFront fuel ⟨some a, [(a, none)]⟩ a = some ⟨some a, [(a, none)]⟩ := by
  constructor
  · simp [moveToFront, glLength]
  · cases fuel with
    | zero => simp [moveToFront, glLength]
    | succ f =>
        simp [moveToFront, glLength, getNext, changePos, findObj]

/-- **C9** is violated by the code: `changePos` updates only function-local
copies of the head pointer when it detaches the current head node (the
comments "Moving first item; update root" and "Move to start; update root"
announce an update of `gl_list` that never happens), so moving the head of
the three-node list `0 → 1 → 2` to position `2` leaves `gl_list = 0` with
`0->g_next = null`: nodes `1` and `2` are no longer reachable, and the node
set is not preserved. -/
theorem changePos_head_loses_nodes :
    displayList ⟨some 0, [(0, some 1), (1, some 2), (2, none)]⟩ 10 =
      [0, 1, 2] ∧
    (changePos 10 ⟨some 0, [(0, some 1), (1, some 2), (2, none)]⟩ 0 2).map
      (fun h => displayList h 10) = some [0] := by
  constructor
  · rfl
  · rfl

/-! ## Theorems: the invalidation bridge -/

/-- The unconditional bounding box of two rectangles. -/
def bb (r o : Rect) : Rect :=
  ⟨min r.x o.x, min r.y o.y,
    max r.getRight o.getRight - min r.x o.x,
    max r.getBottom o.getBottom - min r.y o.y⟩

lemma bb_getRight (r o : Rect) : (bb r o).getRight = max r.getRight o.getRight := by
  simp [bb, Rect.getRight]

lemma bb_getBottom (r o : Rect) : (bb r o).getBottom = max r.getBottom o.getBottom := by
  simp [bb, Rect.getBottom]

lemma bb_comm (r o : Rect) : bb r o = bb o r := by
  simp only [bb, Rect.mk.injEq]
  refine ⟨?_, ?_, ?_, ?_⟩ <;> omega

lemma bb_assoc (r o p : Rect) : bb (bb r o) p = bb r (bb o p) := by
  simp only [bb, Rect.getRight, Rect.getBottom, Rect.mk.injEq]
  refine ⟨?_, ?_, ?_, ?_⟩ <;> omega

lemma getUnion_eq_bb (r o : Rect) (hr : ¬ r.isEmpty) (ho : ¬ o.isEmpty) :
    r.getUnion o = bb r o := by
  unfold Rect.getUnion
  rw [if_neg ho, if_neg hr]
  rfl

lemma bb_not_isEmpty (r o : Rect) (hr : ¬ r.isEmpty) (ho : ¬ o.isEmpty) :
    ¬ (bb r o).isEmpty := by
  unfold Rect.isEmpty at hr ho ⊢
  push_neg at hr ho ⊢
  unfold bb Rect.getRight Rect.getBottom
  dsimp only
  constructor <;> omega

lemma getUnion_swap (acc a b : Rect) (ha : ¬ a.isEmpty) (hb : ¬ b.isEmpty) :
    (acc.getUnion a).getUnion b = (acc.getUnion b).getUnion a := by
  by_cases hacc : acc.isEmpty
  · have h1 : acc.getUnion a = a := by
      unfold Rect.getUnion
      rw [if_neg ha, if_pos hacc]
    have h2 : acc.getUnion b = b := by
      unfold Rect.getUnion
      rw [if_neg hb, if_pos hacc]
    rw [h1, h2, getUnion_eq_bb a b ha hb, getUnion_eq_bb b a hb ha, bb_comm]
  · rw [getUnion_eq_bb acc a hacc ha, getUnion_eq_bb acc b hacc hb,
      getUnion_eq_bb _ b (bb_not_isEmpty acc a hacc ha) hb,
      getUnion_eq_bb _ a (bb_not_isEmpty acc b hacc hb) ha,
      bb_assoc, bb_assoc, bb_comm a b]

lemma foldl_getUnion_perm {l₁ l₂ : List Rect} (hp : l₁.Perm l₂)
    (hne : ∀ r ∈ l₁, ¬ r.isEmpty) :
    ∀ acc : Rect, l₁.foldl Rect.getUnion acc = l₂.foldl Rect.getUnion acc := by
  induction hp with
  | nil => intro acc; rfl
  | cons x _ ih =>
      intro acc
      simp only [List.foldl_cons]
      exact ih (fun r hr => hne r (List.mem_cons_of_mem x hr)) _
  | swap x y l =>
      intro acc
      simp only [List.foldl_cons]
      rw [getUnion_swap acc x y
        (hne x (List.mem_cons_of_mem y (List.mem_cons_self x l)))
        (hne y (List.mem_cons_self y (x :: l)))]
  | trans h₁ _ ih₁ ih₂ =>
      intro acc
      rw [ih₁ hne acc]
      exact ih₂ (fun r hr => hne r (h₁.mem_iff.mpr hr)) acc

lemma foldl_invalidate_eq (calls : List InvalidateCall) :
    ∀ acc : Rect,
      calls.foldl invalidate acc =
        (contributions calls).foldl Rect.getUnion acc := by
  induction calls with
  | nil => intro acc; rfl
  | cons c cs ih =>
      intro acc
      by_cases hc : c.origin.visible = true ∧
          ¬ (c.rect.getIntersection c.origin.localBounds).isEmpty
      · simp only [contributions, List.filterMap_cons, List.foldl_cons,
          invalidate, invalidateArea, if_pos hc]
        exact ih _
      · simp only [contributions, List.filterMap_cons, List.foldl_cons,
          invalidate, invalidateArea, if_neg hc]
        exact ih _

lemma contributions_not_isEmpty (calls : List InvalidateCall) :
    ∀ r ∈ contributions calls, ¬ r.isEmpty := by
  intro r hr
  simp only [contributions, List.mem_filterMap] at hr
  obtain ⟨c, _, heq⟩ := hr
  by_cases hc : c.origin.visible = true ∧
      ¬ (c.rect.getIntersection c.origin.localBounds).isEmpty
  · rw [if_pos hc] at heq
    obtain ⟨-, hb⟩ := hc
    unfold Rect.isEmpty at hb
    push_neg at hb
    cases heq
    unfold Rect.isEmpty Rect.translated Rect.expanded
    push_neg
    constructor <;> simp <;> omega
  · rw [if_neg hc] at heq
    cases heq

/-- **C5** as stated is false: the listener expands each clipped rectangle
by a 2-pixel margin before unioning it, so the accumulated dirty rectangle
strictly contains — and differs from — the bounding union of the clipped
request rectangles even for a single call from a visible component whose
transform is the identity. -/
theorem invalidate_not_exact_counterexample :
    processInvalidations
        [⟨⟨100, 100, true, 0, 0⟩, ⟨0, 0, 10, 10⟩⟩] ≠
      specDirtyRect [⟨⟨100, 100, true, 0, 0⟩, ⟨0, 0, 10, 10⟩⟩] := by
  decide

/-- **C5 (amended).** For every sequence of `invalidate(r)` calls between
two frame composites, the accumulated dirty rectangle equals the bounding
union of the contributed rectangles — each request first intersected with
its origin component's bounds, then expanded by the 2-pixel anti-aliasing
margin and mapped into surface coordinates, with invisible components and
empty intersections contributing nothing — and the result is independent of
the order of the calls. -/
theorem invalidate_accumulates (calls calls₂ : List InvalidateCall)
    (hp : calls.Perm calls₂) :
    processInvalidations calls = boundingUnion (contributions calls) ∧
    processInvalidations calls = processInvalidations calls₂ := by
  constructor
  · exact foldl_invalidate_eq calls _
  · unfold processInvalidations
    rw [foldl_invalidate_eq calls, foldl_invalidate_eq calls₂]
    exact foldl_getUnion_perm (hp.filterMap _)
      (contributions_not_isEmpty calls) _

/-- Witness for `invalidate_accumulates`: two concrete calls issued in both
orders accumulate the same dirty rectangle, the bounding union of their
expanded clips. -/
theorem invalidate_accumulates_witness :
    processInvalidations
        [⟨⟨100, 100, true, 0, 0⟩, ⟨0, 0, 10, 10⟩⟩,
         ⟨⟨50, 50, true, 7, 3⟩, ⟨20, 20, 40, 5⟩⟩] =
      boundingUnion (contributions
        [⟨⟨100, 100, true, 0, 0⟩, ⟨0, 0, 10, 10⟩⟩,
         ⟨⟨50, 50, true, 7, 3⟩, ⟨20, 20, 40, 5⟩⟩]) ∧
    processInvalidations
        [⟨⟨100, 100, true, 0, 0⟩, ⟨0, 0, 10, 10⟩⟩,
         ⟨⟨50, 50, true, 7, 3⟩, ⟨20, 20, 40, 5⟩⟩] =
      processInvalidations
        [⟨⟨50, 50, true, 7, 3⟩, ⟨20, 20, 40, 5⟩⟩,
         ⟨⟨100, 100, true, 0, 0⟩, ⟨0, 0, 10, 10⟩⟩] :=
  invalidate_accumulates _ _ (by decide)

/-! ## Theorems: GPU resource caches -/

lemma tileGrid_ne_nil (limit w h : ℤ) (fc f : ℕ) (hw : 0 < w) (hh : 0 < h)
    (hfc : 1 ≤ fc) (hf : 1 ≤ f) : tileGrid limit w h fc f 0 ≠ [] := by
  cases f with
  | zero => omega
  | succ f2 =>
      cases fc with
      | zero => omega
      | succ fc2 =>
          simp only [tileGrid, if_pos hw, tileColumn, if_pos hh]
          simp

/-- **C6.** Both GPU resource caches report `needsUpdate(w, h)` before any
resource exists (first use); after a successful create at size `(w, h)` —
the rendering constructor for `NVGImage`, `renderToFramebuffer` for
`NVGFramebuffer` — `needsUpdate(w, h)` is false; and it is true again after
`setDirty()` or when queried with a width or height differing from the
stored size. -/
theorem needsUpdate_lifecycle (limit : ℤ) (fuel : ℕ) (w h w2 h2 : ℤ)
    (img : NVGImage) (fbuf : NVGFramebuffer)
    (hw : 0 < w) (hh : 0 < h) (hfuel : 1 ≤ fuel) :
    NVGImage.mkEmpty.needsUpdate w h ∧
    ¬ (NVGImage.create limit fuel w h).needsUpdate w h ∧
    img.setDirty.needsUpdate w2 h2 ∧
    (w2 ≠ img.totalWidth ∨ h2 ≠ img.totalHeight → img.needsUpdate w2 h2) ∧
    NVGFramebuffer.mkEmpty.needsUpdate w h ∧
    ¬ (fbuf.renderToFramebuffer w h).needsUpdate w h ∧
    fbuf.setDirty.needsUpdate w2 h2 ∧
    (w2 ≠ fbuf.fbWidth ∨ h2 ≠ fbuf.fbHeight → fbuf.needsUpdate w2 h2) := by
  refine ⟨?_, ?_, ?_, ?_, ?_, ?_, ?_, ?_⟩
  · exact Or.inl rfl
  · unfold NVGImage.create NVGImage.loadJUCEImage
    by_cases hs : w ≤ limit ∧ h ≤ limit
    · rw [if_pos hs]
      simp [NVGImage.mkEmpty, NVGImage.needsUpdate]
    · rw [if_neg hs]
      simp only [NVGImage.needsUpdate, NVGImage.mkEmpty]
      push_neg
      exact ⟨tileGrid_ne_nil limit w h fuel fuel hw hh hfuel hfuel,
        rfl, rfl, by simp⟩
  · simp [NVGImage.setDirty, NVGImage.needsUpdate]
  · intro hd
    unfold NVGImage.needsUpdate
    tauto
  · exact Or.inl rfl
  · unfold NVGFramebuffer.renderToFramebuffer NVGFramebuffer.bind
    by_cases hb : fbuf.fb = false ∨ fbuf.fbWidth ≠ w ∨ fbuf.fbHeight ≠ h
    · rw [if_pos hb]
      simp [NVGFramebuffer.needsUpdate]
    · rw [if_neg hb]
      push_neg at hb
      simp [NVGFramebuffer.needsUpdate, hb.1, hb.2.1, hb.2.2]
  · simp [NVGFramebuffer.setDirty, NVGFramebuffer.needsUpdate]
  · intro hd
    unfold NVGFramebuffer.needsUpdate
    tauto

/-- Witness for `needsUpdate_lifecycle` at texture limit `8192`, size
`3 × 4`, query size `9 × 9`, and concrete cache states. -/
theorem needsUpdate_lifecycle_witness :
    ¬ (NVGImage.create 8192 1 3 4).needsUpdate 3 4 ∧
    (NVGImage.mk [⟨0, 0, 5, 5⟩] 5 5 false).needsUpdate 9 9 ∧
    ¬ ((NVGFramebuffer.mk true 7 7 true).renderToFramebuffer 3 4).needsUpdate
        3 4 := by
  have h := needsUpdate_lifecycle 8192 1 3 4 9 9
    (NVGImage.mk [⟨0, 0, 5, 5⟩] 5 5 false) (NVGFramebuffer.mk true 7 7 true)
    (by decide) (by decide) (by decide)
  exact ⟨h.2.1, h.2.2.2.1 (by decide), h.2.2.2.2.2.1⟩

end PlugData
